import Mathlib

/-!
Verification development for the time-tracker template-builder editor plugin.

The plugin's core logic lives in the main plugin class: annotation extraction
(`getTimeTrackerTemplateInfo`), minute aggregation (`calculateMinutes`),
status-bar rendering (`setMinutesTuStatusBar`), template rendering
(`getTimeTrackerTemplate`) and preset-task parsing (`getPresetTasks`).
This file gives a shallow embedding of those functions and proves the spec's
testable properties about them.

Conventions of the embedding:
* JavaScript strings are modelled as `String` and manipulated through their
  `List Char` data, so every definition evaluates by kernel reduction.
* A possibly-`undefined` JavaScript value of string type is an `Option String`.
* JavaScript numbers occurring here are integers after the NaN fallback, so
  `Int` is used; `parseInt` itself returns `Option Int` with `none` for NaN.
* The host regular-expression engine (`new RegExp(pattern, "g")` together with
  `inputText.matchAll(regex)` and `.flat()`) is treated as an external
  collaborator: extraction is parametrised by a matcher `String → List String`.
  For the default configured pattern, a faithful executable matcher
  `ttMatchAll` is defined below and used for all concrete instances.
-/

set_option autoImplicit false

universe u v

/-- Result record of parsing one matched annotation.  `id` is `array[1]` of the
JavaScript token array and may be `undefined` when the match has fewer than two
tokens, hence `Option String`. -/
structure TimeTrackerTemplateInfo where
  id : Option String
  time : Int
  text : String
deriving DecidableEq

/-- A configured preset task: a pair of task id and display name. -/
structure PresetTask where
  id : String
  name : String
deriving DecidableEq

/-- Prepend a character to the first chunk of a split result (helper for the
split functions below). -/
def consHead (c : Char) : List (List Char) → List (List Char)
  | [] => [[c]]
  | h :: t => (c :: h) :: t

/-- Model of JavaScript `String.prototype.split` with a single-character
separator: `"".split(sep)` is `[""]`, separators at the ends produce empty
chunks. -/
def splitOnChar (sep : Char) : List Char → List (List Char)
  | [] => [[]]
  | c :: rest =>
    if c = sep then [] :: splitOnChar sep rest
    else consHead c (splitOnChar sep rest)

/-- Model of JavaScript `split("___")` (the three-underscore preset-task
delimiter): leftmost, non-overlapping occurrences of `___` cut the string. -/
def splitUnderscores : List Char → List (List Char)
  | '_' :: '_' :: '_' :: rest => [] :: splitUnderscores rest
  | c :: rest => consHead c (splitUnderscores rest)
  | [] => [[]]

/-- Model of JavaScript `Array.prototype.join(" ")` on an array of strings. -/
def joinSpaces : List String → String
  | [] => ""
  | [s] => s
  | s :: t :: rest => s ++ " " ++ joinSpaces (t :: rest)

/-- Model of JavaScript `Array.prototype.join("\n")` on an array of strings. -/
def joinLines : List String → String
  | [] => ""
  | [s] => s
  | s :: t :: rest => s ++ "\n" ++ joinLines (t :: rest)

/-- Model of JavaScript string interpolation of a possibly-`undefined` string
value: `undefined` renders as the literal text `undefined`. -/
def jsStr : Option String → String
  | some s => s
  | none => "undefined"

/-- Hexadecimal digit test, for the `0x` branch of `parseInt`. -/
def isHexDigitChar (c : Char) : Bool :=
  c.isDigit || (97 ≤ c.toNat && c.toNat ≤ 102) || (65 ≤ c.toNat && c.toNat ≤ 70)

/-- Numeric value of a hexadecimal digit. -/
def hexDigitVal (c : Char) : Nat :=
  if c.isDigit then c.toNat - 48
  else if 97 ≤ c.toNat && c.toNat ≤ 102 then c.toNat - 87
  else c.toNat - 55

/-- Longest decimal-digit prefix, `none` when empty (`parseInt` yields NaN). -/
def decRun (cs : List Char) : Option Nat :=
  let ds := cs.takeWhile Char.isDigit
  if ds.isEmpty then none
  else some (ds.foldl (fun a c => a * 10 + (c.toNat - 48)) 0)

/-- Longest hexadecimal-digit prefix, `none` when empty. -/
def hexRun (cs : List Char) : Option Nat :=
  let ds := cs.takeWhile isHexDigitChar
  if ds.isEmpty then none
  else some (ds.foldl (fun a c => a * 16 + hexDigitVal c) 0)

/-- Magnitude part of `parseInt` with unspecified radix: a `0x`/`0X` prefix
selects base 16, otherwise base 10. -/
def jsParseNat (cs : List Char) : Option Nat :=
  match cs with
  | '0' :: 'x' :: rest => hexRun rest
  | '0' :: 'X' :: rest => hexRun rest
  | _ => decRun cs

/-- Sign handling of `parseInt`, applied after leading whitespace is removed. -/
def jsParseIntCore (cs : List Char) : Option Int :=
  match cs with
  | '-' :: rest => (jsParseNat rest).map (fun m => -(Int.ofNat m))
  | '+' :: rest => (jsParseNat rest).map (fun m => Int.ofNat m)
  | _ => (jsParseNat cs).map (fun m => Int.ofNat m)

/-- ECMAScript whitespace as trimmed by `parseInt`: WhiteSpace (TAB, VT, FF,
SP, NBSP, ZWNBSP and the Unicode Space-Separator category) together with the
LineTerminator characters (LF, CR, LS, PS). -/
def isJsWhitespace (c : Char) : Bool :=
  let n := c.toNat
  (9 ≤ n && n ≤ 13) || n = 32 || n = 160 || n = 5760 || (8192 ≤ n && n ≤ 8202)
    || n = 8232 || n = 8233 || n = 8239 || n = 8287 || n = 12288 || n = 65279

/-- ECMAScript LineTerminator characters: LF, CR, LS (U+2028), PS (U+2029). -/
def isJsLineTerminator (c : Char) : Bool :=
  c.toNat = 10 || c.toNat = 13 || c.toNat = 8232 || c.toNat = 8233

/-- Model of JavaScript `parseInt(string)` (radix argument omitted): skip
leading whitespace, optional sign, optional `0x` prefix, longest digit run;
`none` models NaN. -/
def jsParseInt (s : String) : Option Int :=
  jsParseIntCore (s.data.dropWhile isJsWhitespace)

/-- The backtick character, the delimiter of the default pattern. -/
def tickChar : Char := Char.ofNat 96

/-- Index of the last backtick of a list, if any. -/
def lastTickIdx : List Char → Option Nat
  | [] => none
  | c :: rest =>
    match lastTickIdx rest with
    | some k => some (k + 1)
    | none => if c = tickChar then some 0 else none

/-- Length of the match of the default pattern (backtick, `tt`, space, then
greedy `.*` followed by a backtick) anchored at the head of `s`, or `none`.
JavaScript `.` excludes the LineTerminator characters (LF, CR, LS, PS), and
greediness makes the match end at the last backtick on the same line. -/
def matchLenAt (s : List Char) : Option Nat :=
  match s with
  | c0 :: c1 :: c2 :: c3 :: rest =>
    if c0 = tickChar ∧ c1 = 't' ∧ c2 = 't' ∧ c3 = ' ' then
      (lastTickIdx (rest.takeWhile (fun c => !(isJsLineTerminator c)))).map
        (fun k => 5 + k)
    else none
  | _ => none

/-- Global scan of `matchAll`: find the leftmost match at or after the current
position, emit it with its start position, and continue after it.  The fuel
argument is the remaining string length; every step consumes at least one
character, so the scan with initial fuel `s.length` is exact. -/
def scanTTAux : Nat → List Char → Nat → List (Nat × List Char)
  | 0, _, _ => []
  | _ + 1, [], _ => []
  | fuel + 1, c :: rest, pos =>
    match matchLenAt (c :: rest) with
    | some n => (pos, (c :: rest).take n) :: scanTTAux fuel ((c :: rest).drop n) (pos + n)
    | none => scanTTAux fuel rest (pos + 1)

/-- All matches of the default pattern in `s`, with their start positions, in
left-to-right order. -/
def scanTT (s : List Char) (pos : Nat) : List (Nat × List Char) :=
  scanTTAux s.length s pos

/-- Matcher for the default configured pattern: the model of
`[...inputText.matchAll(new RegExp(defaultPattern, "g"))].flat()` (the pattern
has no capture groups, so flattening yields the full match strings). -/
def ttMatchAll (inputText : String) : List String :=
  (scanTT inputText.data 0).map (fun pm => String.mk pm.2)

/-- Per-match body of `getTimeTrackerTemplateInfo`: split the matched string on
single spaces, read `array[1]` and `array[2]`, rejoin the tokens from index 3
with spaces, drop the final character (the closing delimiter), and parse the
minutes with a NaN-to-zero fallback. -/
def parseMatch (v : String) : TimeTrackerTemplateInfo :=
  let array := (splitOnChar ' ' v.data).map String.mk
  let jiraId := array[1]?
  let minutes := array[2]?
  let textTemp := joinSpaces (array.drop 3)
  let text := String.mk textTemp.data.dropLast
  let minutesAsInt : Int := (minutes.bind jsParseInt).getD 0
  { id := jiraId, time := minutesAsInt, text := text }

/-- Embedding of `getTimeTrackerTemplateInfo`, parametrised by the external
matcher (regular-expression engine applied to the configured pattern). -/
def getTimeTrackerTemplateInfo (mAll : String → List String) (inputText : String) :
    List TimeTrackerTemplateInfo :=
  (mAll inputText).map parseMatch

/-- Embedding of `getTimeTrackerTemplate`: one line per record in the form
`id__time_text`, joined with newlines. -/
def getTimeTrackerTemplate (info : List TimeTrackerTemplateInfo) : String :=
  joinLines (info.map (fun value =>
    jsStr value.id ++ "__" ++ toString value.time ++ "_" ++ value.text))

/-- Embedding of `calculateMinutes`: reduce the extracted records with
`(acc, o) => acc + o.time` from 0. -/
def calculateMinutes (mAll : String → List String) (text : String) : Int :=
  (getTimeTrackerTemplateInfo mAll text).foldl
    (fun accumulator object => accumulator + object.time) 0

/-- Embedding of `setMinutesTuStatusBar`, as the pure status-bar text it
computes from the document text and the configured `maxTimeInMinutes`. -/
def setMinutesTuStatusBar (mAll : String → List String) (maxTimeInMinutes : Int)
    (text : String) : String :=
  let sum := calculateMinutes mAll text
  let max := maxTimeInMinutes
  let dif := max - sum
  if sum = max then "Minutes on file: '" ++ toString sum ++ "'"
  else
    "Minutes on file: '" ++ toString sum ++ "'. M: '" ++ toString max ++
      "'. D: '" ++ toString dif ++ "'"

/-- Embedding of `getPresetTasks`: split the configuration string into lines,
split each line on `___`, keep lines with exactly two fields, drop the rest. -/
def getPresetTasks (presetTasks : String) : List PresetTask :=
  let tasks := (splitOnChar '\n' presetTasks.data).map (fun vdata =>
    let array := (splitUnderscores vdata).map String.mk
    if array.length = 2 then
      some { id := (array[0]?).getD (""), name := (array[1]?).getD ("") }
    else
      none)
  tasks.filterMap id

/-! ### Helper lemmas -/

/-- Pushing a `map` producing options through `filterMap id`. -/
theorem filterMap_id_map {α : Type u} {β : Type v} (f : α → Option β) (l : List α) :
    (l.map f).filterMap id = l.filterMap f := by
  rw [List.filterMap_map]
  rfl

/-- Taking the length of a take is the take itself. -/
theorem take_len_take (s : List Char) (n : Nat) :
    s.take ((s.take n).length) = s.take n := by
  rw [List.length_take]
  rcases Nat.le_total n s.length with h | h
  · rw [Nat.min_eq_left h]
  · rw [Nat.min_eq_right h, List.take_length, List.take_of_length_le h]

/-- A successful anchored match of the default pattern is nonempty. -/
theorem matchLenAt_pos (s : List Char) (n : Nat) (h : matchLenAt s = some n) : 1 ≤ n := by
  unfold matchLenAt at h
  split at h
  · split at h
    · simp only [Option.map_eq_some'] at h
      obtain ⟨k, -, hk⟩ := h
      omega
    · simp at h
  · simp at h

/-- Every emitted match of the scan is nonempty, starts at or after the scan
position, and is the actual substring of the scanned list at its reported
position. -/
theorem scanTTAux_occurs : ∀ (fuel : Nat) (s : List Char) (pos p : Nat) (m : List Char),
    (p, m) ∈ scanTTAux fuel s pos →
      m ≠ [] ∧ pos ≤ p ∧ (s.drop (p - pos)).take m.length = m := by
  intro fuel
  induction fuel with
  | zero => intro s pos p m hm; simp [scanTTAux] at hm
  | succ fuel ih =>
    intro s pos p m hm
    cases s with
    | nil => simp [scanTTAux] at hm
    | cons c rest =>
      rw [scanTTAux] at hm
      cases hml : matchLenAt (c :: rest) with
      | none =>
        rw [hml] at hm
        obtain ⟨hne, hle, htk⟩ := ih rest (pos + 1) p m hm
        refine ⟨hne, by omega, ?_⟩
        have hsub : p - pos = (p - (pos + 1)) + 1 := by omega
        rw [hsub]
        simpa using htk
      | some n =>
        rw [hml] at hm
        simp only [List.mem_cons, Prod.mk.injEq] at hm
        rcases hm with ⟨hp, hmeq⟩ | htail
        · subst hp
          subst hmeq
          have hn1 : 1 ≤ n := matchLenAt_pos _ _ hml
          refine ⟨?_, le_refl _, ?_⟩
          · cases n with
            | zero => omega
            | succ k => simp [List.take]
          · simp only [Nat.sub_self, List.drop_zero]
            exact take_len_take _ _
        · obtain ⟨hne, hle, htk⟩ := ih _ _ p m htail
          refine ⟨hne, by omega, ?_⟩
          have hsub : p - pos = n + (p - (pos + n)) := by omega
          rw [hsub, ← List.drop_drop]
          exact htk

/-- The reported match positions of the scan are strictly increasing, i.e. the
matches come out in left-to-right document order. -/
theorem scanTTAux_pairwise : ∀ (fuel : Nat) (s : List Char) (pos : Nat),
    ((scanTTAux fuel s pos).map Prod.fst).Pairwise (fun a b => a < b) := by
  intro fuel
  induction fuel with
  | zero => intro s pos; simp [scanTTAux]
  | succ fuel ih =>
    intro s pos
    cases s with
    | nil => simp [scanTTAux]
    | cons c rest =>
      rw [scanTTAux]
      cases hml : matchLenAt (c :: rest) with
      | none => exact ih rest (pos + 1)
      | some n =>
        simp only [List.map_cons]
        refine List.Pairwise.cons ?_ (ih _ _)
        intro q hq
        simp only [List.mem_map] at hq
        obtain ⟨⟨p2, m2⟩, hmem, hfst⟩ := hq
        obtain ⟨-, hle, -⟩ := scanTTAux_occurs fuel _ _ _ _ hmem
        have hn1 : 1 ≤ n := matchLenAt_pos _ _ hml
        simp only at hfst
        omega

/-- The reduce of the plugin over records computes the sum of the `time`
fields, for any starting accumulator. -/
theorem foldl_time_eq_sum (l : List TimeTrackerTemplateInfo) : ∀ a : Int,
    l.foldl (fun accumulator object => accumulator + object.time) a
      = a + (l.map (fun r => r.time)).sum := by
  induction l with
  | nil => intro a; simp
  | cons h t ih => intro a; simp [List.foldl_cons, ih, add_assoc]

/-- After whitespace skipping, `parseInt` returns a non-negative value unless
the first character is a minus sign. -/
theorem jsParseIntCore_nonneg (cs : List Char) (h : cs.head? ≠ some ('-'))
    (n : Int) (hn : jsParseIntCore cs = some n) : 0 ≤ n := by
  unfold jsParseIntCore at hn
  split at hn
  · simp at h
  · simp only [Option.map_eq_some'] at hn
    obtain ⟨m, -, hm⟩ := hn
    subst hm
    exact Int.natCast_nonneg m
  · simp only [Option.map_eq_some'] at hn
    obtain ⟨m, -, hm⟩ := hn
    subst hm
    exact Int.natCast_nonneg m

/-- `parseInt` of a string whose first non-whitespace character is not a minus
sign never returns a negative value. -/
theorem jsParseInt_nonneg (s : String)
    (h : (s.data.dropWhile isJsWhitespace).head? ≠ some ('-'))
    (n : Int) (hn : jsParseInt s = some n) : 0 ≤ n :=
  jsParseIntCore_nonneg _ h n hn

/-! ### Claim theorems -/

/-- C1: for the default pattern applied to the backtick-delimited input
`` `tt ABC-1 30 did work` ``, extraction returns exactly one record with
id `ABC-1`, 30 minutes, and description `did work` with the closing delimiter
stripped. -/
theorem default_pattern_extraction_example :
    getTimeTrackerTemplateInfo ttMatchAll ("`tt ABC-1 30 did work`")
      = [{ id := some ("ABC-1"), time := 30, text := ("did work") }] := by
  decide

/-- C2: every matched annotation whose minutes token does not parse as an
integer yields a record with `time = 0`; extraction is a total function of the
match list (it maps the per-match parser over it and never fails). -/
theorem nonnumeric_minutes_to_zero (mAll : String → List String) (text : String) :
    getTimeTrackerTemplateInfo mAll text = (mAll text).map parseMatch ∧
    ∀ v : String,
      (((splitOnChar ' ' v.data).map String.mk)[2]?).bind jsParseInt = none →
        (parseMatch v).time = 0 := by
  refine ⟨rfl, ?_⟩
  intro v hv
  simp only [parseMatch]
  rw [hv]
  rfl

/-- Witness for C2 at the spec's example input. -/
theorem nonnumeric_minutes_to_zero_witness :
    (parseMatch ("`tt ABC-1 xx note`")).time = 0 ∧
    getTimeTrackerTemplateInfo ttMatchAll ("`tt ABC-1 xx note`")
      = (ttMatchAll ("`tt ABC-1 xx note`")).map parseMatch :=
  ⟨(nonnumeric_minutes_to_zero ttMatchAll ("`tt ABC-1 xx note`")).2
      ("`tt ABC-1 xx note`") (by decide),
   (nonnumeric_minutes_to_zero ttMatchAll ("`tt ABC-1 xx note`")).1⟩

/-- C3: the displayed sum is the arithmetic sum of the extracted records'
minutes; the status text is the short form exactly when the sum equals the
configured max, and otherwise the long form with `D = max - sum` (which may
be negative). -/
theorem status_bar_sum_and_text (mAll : String → List String) (text : String) (max : Int) :
    calculateMinutes mAll text
        = ((getTimeTrackerTemplateInfo mAll text).map (fun r => r.time)).sum ∧
    (calculateMinutes mAll text = max →
      setMinutesTuStatusBar mAll max text
        = "Minutes on file: '" ++ toString (calculateMinutes mAll text) ++ "'") ∧
    (calculateMinutes mAll text ≠ max →
      setMinutesTuStatusBar mAll max text
        = "Minutes on file: '" ++ toString (calculateMinutes mAll text) ++ "'. M: '"
            ++ toString max ++ "'. D: '"
            ++ toString (max - calculateMinutes mAll text) ++ "'") := by
  refine ⟨?_, ?_, ?_⟩
  · unfold calculateMinutes
    simpa using foldl_time_eq_sum (getTimeTrackerTemplateInfo mAll text) 0
  · intro h
    simp only [setMinutesTuStatusBar]
    rw [if_pos h]
  · intro h
    simp only [setMinutesTuStatusBar]
    rw [if_neg h]

/-- Witness for C3 on both branches of the status text. -/
theorem status_bar_sum_and_text_witness :
    setMinutesTuStatusBar ttMatchAll 480 ("`tt A 30 w`")
        = "Minutes on file: '30'. M: '480'. D: '450'" ∧
    setMinutesTuStatusBar ttMatchAll 30 ("`tt A 30 w`") = "Minutes on file: '30'" := by
  constructor
  · exact ((status_bar_sum_and_text ttMatchAll ("`tt A 30 w`") 480).2.2
      (by decide)).trans (by decide)
  · exact ((status_bar_sum_and_text ttMatchAll ("`tt A 30 w`") 30).2.1
      (by decide)).trans (by decide)

/-- C4: template rendering emits one line per record in the format
`id__time_text` (two underscores, then one), joined by single newlines with no
trailing newline, in input order; the spec's example record renders exactly as
stated. -/
theorem template_line_format :
    getTimeTrackerTemplate [] = "" ∧
    (∀ r : TimeTrackerTemplateInfo,
      getTimeTrackerTemplate [r]
        = jsStr r.id ++ "__" ++ toString r.time ++ "_" ++ r.text) ∧
    (∀ (r : TimeTrackerTemplateInfo) (l : List TimeTrackerTemplateInfo), l ≠ [] →
      getTimeTrackerTemplate (r :: l)
        = (jsStr r.id ++ "__" ++ toString r.time ++ "_" ++ r.text) ++ "\n"
            ++ getTimeTrackerTemplate l) ∧
    getTimeTrackerTemplate [{ id := some ("ABC-1"), time := 30, text := ("did work") }]
      = "ABC-1__30_did work" := by
  refine ⟨rfl, fun r => rfl, ?_, by decide⟩
  intro r l hl
  cases l with
  | nil => exact absurd rfl hl
  | cons b t => rfl

/-- Witness for C4 on a two-record list. -/
theorem template_line_format_witness :
    getTimeTrackerTemplate
        [{ id := some ("X"), time := 1, text := ("y") },
         { id := some ("ABC-1"), time := 30, text := ("did work") }]
      = "X__1_y\nABC-1__30_did work" := by
  have h := template_line_format.2.2.1 ({ id := some ("X"), time := 1, text := ("y") })
      ([{ id := some ("ABC-1"), time := 30, text := ("did work") }]) (by decide)
  exact h.trans (by decide)

/-- C5: whenever the configured pattern produces no match in the document
text, extraction returns the empty sequence and the summed minutes is 0. -/
theorem no_match_empty_extraction (mAll : String → List String) (text : String)
    (h : mAll text = []) :
    getTimeTrackerTemplateInfo mAll text = [] ∧ calculateMinutes mAll text = 0 := by
  unfold calculateMinutes getTimeTrackerTemplateInfo
  rw [h]
  exact ⟨rfl, rfl⟩

/-- Witness for C5 on a text with no annotation. -/
theorem no_match_empty_extraction_witness :
    getTimeTrackerTemplateInfo ttMatchAll ("no annotations in this note") = [] ∧
    calculateMinutes ttMatchAll ("no annotations in this note") = 0 :=
  no_match_empty_extraction ttMatchAll ("no annotations in this note") (by decide)

/-- C6: extraction with the default pattern returns the per-match records in
the order of the scan, whose reported match positions are strictly increasing
and are the genuine left-to-right positions of the matched substrings in the
document text. -/
theorem extraction_document_order (text : String) :
    getTimeTrackerTemplateInfo ttMatchAll text
        = (scanTT text.data 0).map (fun pm => parseMatch (String.mk pm.2)) ∧
    ((scanTT text.data 0).map Prod.fst).Pairwise (fun a b => a < b) ∧
    (∀ (p : Nat) (m : List Char), (p, m) ∈ scanTT text.data 0 →
      m ≠ [] ∧ (text.data.drop p).take m.length = m) := by
  refine ⟨?_, scanTTAux_pairwise _ _ _, ?_⟩
  · simp only [getTimeTrackerTemplateInfo, ttMatchAll, List.map_map]
    rfl
  · intro p m hm
    obtain ⟨hne, -, htk⟩ := scanTTAux_occurs _ _ _ _ _ hm
    exact ⟨hne, by simpa using htk⟩

/-- Witness for C6: in a two-annotation document the second match is found at
position 11 and really is the substring there. -/
theorem extraction_document_order_witness :
    ((("`tt A 1 a`\n`tt B 2 b`" : String).data.drop 11).take
        (("`tt B 2 b`" : String).data.length) = ("`tt B 2 b`" : String).data) ∧
    ((scanTT (("`tt A 1 a`\n`tt B 2 b`" : String).data) 0).map Prod.fst).Pairwise
      (fun a b => a < b) := by
  have h := extraction_document_order ("`tt A 1 a`\n`tt B 2 b`")
  refine ⟨?_, h.2.1⟩
  exact (h.2.2 11 (("`tt B 2 b`" : String).data) (by decide)).2

/-- C7: preset-task parsing splits the configuration into lines, splits each
line on the three-underscore delimiter, keeps exactly the lines with two
fields in configuration order, and drops the rest; the spec's example yields
exactly the two tasks. -/
theorem preset_tasks_parsing :
    (∀ s : String, getPresetTasks s
        = (splitOnChar '\n' s.data).filterMap (fun vdata =>
            match (splitUnderscores vdata).map String.mk with
            | [a, b] => some { id := a, name := b }
            | _ => none)) ∧
    getPresetTasks ("A___Alpha\nBAD\nB___Beta")
      = [{ id := ("A"), name := ("Alpha") }, { id := ("B"), name := ("Beta") }] := by
  constructor
  · intro s
    simp only [getPresetTasks]
    rw [filterMap_id_map]
    congr 1
    funext vdata
    rcases hsp : (splitUnderscores vdata).map String.mk with - | ⟨a, t⟩
    · simp
    · rcases t with - | ⟨b, t2⟩
      · simp
      · rcases t2 with - | ⟨c, t3⟩
        · simp
        · have hne : ¬ ((a :: b :: c :: t3).length = 2) := by
            simp [List.length_cons]
          rw [if_neg hne]
  · decide

/-- C8 counterexample: the minutes token `-30` parses to the negative value
`-30`, so extraction can produce a record with negative minutes, refuting the
claimed non-negativity invariant. -/
theorem negative_minutes_possible :
    getTimeTrackerTemplateInfo ttMatchAll ("`tt ABC-1 -30 work`")
        = [{ id := some ("ABC-1"), time := -30, text := ("work") }] ∧
    ¬ (∀ r ∈ getTimeTrackerTemplateInfo ttMatchAll ("`tt ABC-1 -30 work`"),
        0 ≤ r.time) := by
  decide

/-- C8 amended: every record's minutes is an integer that is non-negative
whenever the minutes token is absent, unparsable, or does not start (after
leading whitespace) with a minus sign; negative numeric tokens such as `-30`
produce negative values. -/
theorem minutes_nonneg_without_minus_sign (v : String)
    (hc : (((splitOnChar ' ' v.data).map String.mk)[2]?).all
        (fun m => (jsParseInt m == none)
            || ((m.data.dropWhile isJsWhitespace).head? != some ('-'))) = true) :
    0 ≤ (parseMatch v).time := by
  simp only [parseMatch]
  cases htok : ((splitOnChar ' ' v.data).map String.mk)[2]? with
  | none => simp
  | some m =>
    rw [htok] at hc
    simp only [Option.all_some, Bool.or_eq_true, beq_iff_eq, bne_iff_ne, ne_eq] at hc
    cases hp : jsParseInt m with
    | none => simp [hp]
    | some n =>
      rcases hc with hc | hc
      · rw [hp] at hc
        simp at hc
      · have hnn := jsParseInt_nonneg m hc n hp
        simp [hp, hnn]

/-- Witness for the amended C8: one token exercising the not-minus-headed
disjunct, one exercising the unparsable (minus-headed) disjunct. -/
theorem minutes_nonneg_without_minus_sign_witness :
    0 ≤ (parseMatch ("`tt ABC-1 30 w`")).time ∧
    0 ≤ (parseMatch ("`tt ABC-1 -xyz note`")).time :=
  ⟨minutes_nonneg_without_minus_sign ("`tt ABC-1 30 w`") (by decide),
   minutes_nonneg_without_minus_sign ("`tt ABC-1 -xyz note`") (by decide)⟩

/-- C9 counterexample: the input `` `tt ` `` has one match that splits into
only 2 tokens, yet extraction does not return the empty sequence - it emits a
record (with the backtick as id, zero minutes, empty description). -/
theorem malformed_match_still_emits_record :
    ((ttMatchAll ("`tt `")).map
        (fun v => ((splitOnChar ' ' v.data).map String.mk).length) = [2]) ∧
    getTimeTrackerTemplateInfo ttMatchAll ("`tt `")
        = [{ id := some ("`"), time := 0, text := ("") }] ∧
    getTimeTrackerTemplateInfo ttMatchAll ("`tt `") ≠ [] := by
  decide

/-- C9 amended: extraction always emits exactly one record per match, even
when a matched substring splits into fewer than 3 tokens; in that case the
record has the (possibly undefined) token at index 1 as id, zero minutes and
an empty description - the result is empty only when there are no matches. -/
theorem short_match_record_shape (mAll : String → List String) (text : String) :
    (getTimeTrackerTemplateInfo mAll text).length = (mAll text).length ∧
    ∀ v : String, ((splitOnChar ' ' v.data).map String.mk).length < 3 →
      parseMatch v
        = { id := ((splitOnChar ' ' v.data).map String.mk)[1]?, time := 0,
            text := ("") } := by
  refine ⟨by simp [getTimeTrackerTemplateInfo], ?_⟩
  intro v hv
  have h2 : ((splitOnChar ' ' v.data).map String.mk)[2]? = none :=
    List.getElem?_eq_none (by omega)
  have h3 : ((splitOnChar ' ' v.data).map String.mk).drop 3 = [] :=
    List.drop_eq_nil_of_le (by omega)
  simp only [parseMatch, h2, h3]
  rfl

/-- Witness for the amended C9 at the 2-token match. -/
theorem short_match_record_shape_witness :
    (getTimeTrackerTemplateInfo ttMatchAll ("`tt `")).length
        = (ttMatchAll ("`tt `")).length ∧
    parseMatch ("`tt `") = { id := some ("`"), time := 0, text := ("") } := by
  have h := short_match_record_shape ttMatchAll ("`tt `")
  exact ⟨h.1, (h.2 ("`tt `") (by decide)).trans (by decide)⟩

/-- C10: a matched substring with exactly 3 space-separated tokens parses
totally into a record whose description is the empty string (the rejoined
description is empty and dropping the final character of the empty string is
the empty string), and that record is part of the extraction result. -/
theorem three_token_match_empty_description (mAll : String → List String)
    (text v : String) (hmem : v ∈ mAll text)
    (hlen : ((splitOnChar ' ' v.data).map String.mk).length = 3) :
    (parseMatch v).text = ("") ∧
    parseMatch v ∈ getTimeTrackerTemplateInfo mAll text := by
  constructor
  · have h3 : ((splitOnChar ' ' v.data).map String.mk).drop 3 = [] :=
      List.drop_eq_nil_of_le (by omega)
    simp only [parseMatch, h3]
    rfl
  · exact List.mem_map_of_mem parseMatch hmem

/-- Witness for C10 at a 3-token annotation without description. -/
theorem three_token_match_empty_description_witness :
    (parseMatch ("`tt ABC-1 30`")).text = ("") ∧
    parseMatch ("`tt ABC-1 30`")
      ∈ getTimeTrackerTemplateInfo ttMatchAll ("`tt ABC-1 30`") :=
  three_token_match_empty_description ttMatchAll ("`tt ABC-1 30`") ("`tt ABC-1 30`")
    (by decide) (by decide)
